import Mathlib

/-!
# Verification of the Hilbert proof-search orchestrator

A shallow embedding of the proof-search orchestrator of this repository
(`src/agent/coordinator.py`, class `HilbertCoordinator`) together with the
retriever (`src/agent/retriever_agent.py`, class `RetrieverAgent`).

Modelling conventions:

* The external capabilities (Reasoner, Retriever index, Verifier, Prover)
  are oracles collected in an `Env` record.  Language-model calls are
  nondeterministic across invocations, so each such oracle additionally
  receives a global call counter (ghost clock) that is incremented on every
  call; the FAISS index search, the dataset lookup and the Lean verifier are
  deterministic in the source and are modelled as pure functions of their
  arguments.
* The orchestrator's sequential, effectful control flow is modelled in a
  state monad `M α = St → α × St` written in explicit state-passing style.
  The state carries only ghost instrumentation: the oracle call counter, the
  chronological list of verifier calls (`vtrace`, input text and success
  flag), the number of Prover invocations (`prover_calls`) and the number of
  sketch-attempt loop iterations started (`sketch_iters`, mirroring the
  "Sketch attempt i/n" log line).
* Similarity scores (floats in the source) are modelled as `Int`; every use
  of a score in the source is a comparison, which is order-generic.
* Python dictionaries keyed by strings are modelled as insertion-ordered
  association lists (`List (String × String)`), with `dict_insert`
  reproducing `d[k] = v` (replace in place if the key exists, else append).
* The mutual recursion `subgoal_decomposition` / `solve_subgoal` is bounded
  in the source by the `depth >= max_depth` base case.  It is embedded with
  an explicit structural fuel parameter that is consumed once per recursive
  `subgoal_decomposition` entry; running out of fuel yields the distinguished
  outer `none` of an `Option (Option String)` result.  The termination
  theorem shows the out-of-fuel result never occurs once
  `max_depth - depth ≤ fuel`, which is exactly the boundedness of the
  source's recursion.
-/

/-- A theorem record as built by `RetrieverAgent.retrieve`:
`{name, signature, type, score}` (the `value` field is commented out in the
source).  The similarity score (a float in the source) is modelled as `Int`. -/
structure Thm where
  name : String
  signature : String
  type : String
  score : Int
deriving DecidableEq, Repr

/-- A row of the mathlib-informal dataset, as read by
`RetrieverAgent.retrieve` (`record["name"]`, `record["signature"]`,
`record["type"]`). -/
structure DataRec where
  name : String
  signature : String
  type : String
deriving DecidableEq, Repr

/-- Ghost instrumentation state threaded through the orchestrator:
oracle call counter, chronological verifier call trace (input text and
success flag), number of Prover calls, and number of sketch-attempt loop
iterations started. -/
structure St where
  counter : Nat
  vtrace : List (String × Bool)
  prover_calls : Nat
  sketch_iters : Nat
deriving DecidableEq, Repr

/-- The initial ghost state. -/
def St.init : St := ⟨0, [], 0, 0⟩

/-- The orchestrator's effect monad: explicit state passing over `St`. -/
def M (α : Type) : Type := St → α × St

/-- Advance the oracle call clock. -/
def tick (st : St) : St := { st with counter := st.counter + 1 }

/-- The external capabilities of the orchestrator.  Deterministic components
(verifier, FAISS index, dataset) are pure; language-model calls take the
ghost call counter as an extra first argument, so that repeated calls with
the same textual arguments may return different answers. -/
structure Env where
  /-- `VerificationAgent.execute`: full proof text to (success, diagnostic).
  The spec's Verifier contract makes this idempotent/pure. -/
  verify : String → Bool × String
  /-- `ProverAgent.prove_subgoal`, when a Prover is configured
  (`self.prover is not None`). -/
  prover : Option (Nat → String → String → String)
  /-- The FAISS `index.search` composed with the query embedding: for a
  query and `top_k` it returns the list of (score, dataset index) pairs,
  i.e. `zip(scores[0], indices[0])`. -/
  index_search : String → Nat → List (Int × Nat)
  /-- The dataset lookup `self.dataset[int(index)]`. -/
  dataset : Nat → DataRec
  /-- `ReasonerAgent.generate_search_queries(problem, docstring, error_message)`. -/
  generate_search_queries : Nat → String → Option String → Option String → List String
  /-- `ReasonerAgent.select_relevant_theorems(problem, docstring, candidates)`. -/
  select_relevant_theorems : Nat → String → Option String → List Thm → List Thm
  /-- `ReasonerAgent.generate_informal_proof(problem, theorems, docstring)`. -/
  generate_informal_proof : Nat → String → List Thm → Option String → String
  /-- `ReasonerAgent.generate_sketch(problem, theorems, informal_proof)`. -/
  generate_sketch : Nat → String → List Thm → String → String
  /-- `ReasonerAgent.compress_sketch(sketch, problem, docstring)`. -/
  compress_sketch : Nat → String → String → Option String → String
  /-- `ReasonerAgent.correct_sketch_error(problem, docstring, sketch, error_message, theorems)`. -/
  correct_sketch_error : Nat → String → Option String → String → String → List Thm → String
  /-- `ReasonerAgent.extract_subgoals(sketch)`. -/
  extract_subgoals : Nat → String → List String
  /-- `ReasonerAgent.correct_theorem_error(subgoal, error_message)`. -/
  correct_theorem_error : Nat → String → String → String
  /-- `ReasonerAgent.use_sketch_and_throrems(sketch, subgoals)` (name as in
  the source). -/
  use_sketch_and_throrems : Nat → String → List String → String
  /-- `ReasonerAgent.assembly_correction(error_message, sketch_assembled)`. -/
  assembly_correction : Nat → String → String → String
  /-- `ReasonerAgent.check_mathematic_correctness(subgoal)`:
  (correct, justification). -/
  check_mathematic_correctness : Nat → String → Bool × String
  /-- `ReasonerAgent.refine_sketch_based_error(sketch, error_message)`. -/
  refine_sketch_based_error : Nat → String → String → String
  /-- `ReasonerAgent.attemp_reasoner_proof(subgoal, relevant_theorems)`
  (name as in the source). -/
  attemp_reasoner_proof : Nat → String → List Thm → String
  /-- `ReasonerAgent.correct_proof_error(proof, error_message, theorems)`. -/
  correct_proof_error : Nat → String → String → List Thm → String

/-- The per-instance retry budgets fixed in `HilbertCoordinator.__init__`
(field names, including the source's spellings, as in the source). -/
structure Config where
  max_depth : Nat
  sketch_attemps : Nat
  sketch_correction_attemps : Nat
  theorem_corrections : Nat
  subgoal_corrections : Nat
  head_theorems_sketch : Nat
  prover_attemps : Nat
  general_llm_proof_attemps : Nat
deriving DecidableEq, Repr

/-- The budgets set in `HilbertCoordinator.__init__`: all 5. -/
def Config.default : Config := ⟨5, 5, 5, 5, 5, 5, 5, 5⟩

/-- Run the verifier on a candidate text, recording the call (input text and
success flag) in the ghost verifier trace. -/
def call_verifier (env : Env) (s : String) : M (Bool × String) := fun st =>
  (env.verify s, { st with vtrace := st.vtrace ++ [(s, (env.verify s).1)] })

/-- Call the configured Prover model, advancing the clock and counting the
call. -/
def call_prover (pf : Nat → String → String → String)
    (probelm header : String) : M String := fun st =>
  (pf st.counter probelm header,
   { st with counter := st.counter + 1, prover_calls := st.prover_calls + 1 })

/-- Python `d[k] = v` on an insertion-ordered string dictionary: replace the
value in place when the key is present, else append the pair. -/
def dict_insert (d : List (String × String)) (k v : String) :
    List (String × String) :=
  if (d.lookup k).isSome then d.map (fun p => if p.1 = k then (k, v) else p)
  else d ++ [(k, v)]

/-! ## Retriever (`src/agent/retriever_agent.py`) -/

/-- `RetrieverAgent.retrieve(query, top_k)`: search the index, build a record
per (score, index) hit, and return `results[:2]` (the source truncates the
built list to its first two records even though `top_k` hits were
requested). -/
def retrieve (env : Env) (query : String) (top_k : Nat) : List Thm :=
  ((env.index_search query top_k).map (fun si =>
    { name := (env.dataset si.2).name
      signature := (env.dataset si.2).signature
      type := (env.dataset si.2).type
      score := si.1 })).take 2

/-- The descending-by-score ordering used by
`sorted(total_results, key=lambda x: x["score"], reverse=True)`. -/
def score_ge (a b : Thm) : Prop := b.score ≤ a.score

instance : DecidableRel score_ge := fun a b => by
  unfold score_ge; infer_instance

instance : IsTotal Thm score_ge := ⟨fun a b => le_total b.score a.score⟩

instance : IsTrans Thm score_ge :=
  ⟨fun _ _ _ hab hbc => le_trans hbc hab⟩

/-- `RetrieverAgent.batch_retrieve(queries, top_k)`: retrieve per query,
extend one list with all results, and sort it by score descending (Python's
stable `sorted` with `reverse=True`, modelled as a stable insertion sort
under `score_ge`). -/
def batch_retrieve (env : Env) (queries : List String) (top_k : Nat) :
    List Thm :=
  List.insertionSort score_ge (queries.flatMap (fun q => retrieve env q top_k))

/-! ## Missing-identifier extraction
(`HilbertCoordinator._extract_missing_identifiers`)

The source scans the diagnostic with the Python regex
`(?:unknown identifier|unknown constant)\s+'?([\w\.]+)'?` (IGNORECASE) and
returns all captures of non-overlapping, leftmost matches.  The scanner
below reproduces those semantics over the characters of the string (with the
ASCII reading of `\w` and `\s`). -/

/-- A character of the capture class `[\w\.]` (ASCII reading). -/
def isIdentChar (c : Char) : Bool := c.isAlphanum || c == '_' || c == '.'

/-- A character of `\s` (ASCII reading). -/
def isSpaceChar (c : Char) : Bool :=
  c == ' ' || c == '\t' || c == '\n' || c == '\r' || c == '\x0b' || c == '\x0c'

/-- Strip a (lower-case) literal pattern case-insensitively. -/
def stripPrefixCI : List Char → List Char → Option (List Char)
  | [], cs => some cs
  | _ :: _, [] => none
  | p :: ps, c :: cs => if c.toLower == p then stripPrefixCI ps cs else none

/-- Python `str.strip()` (ASCII whitespace reading): drop whitespace from
both ends.  Used to model the `not proof.strip()` emptiness tests. -/
def py_strip (s : String) : String :=
  String.mk (((s.toList.dropWhile isSpaceChar).reverse.dropWhile
    isSpaceChar).reverse)

/-- Split off a non-empty maximal run of characters satisfying `p`. -/
def takeRun1 (p : Char → Bool) (cs : List Char) :
    Option (List Char × List Char) :=
  let w := cs.takeWhile p
  if w.isEmpty then none else some (w, cs.drop w.length)

/-- Try to match the whole regex at the start of `cs`; on success return the
capture and the remainder after the match. -/
def matchAt (cs : List Char) : Option (List Char × List Char) :=
  match (stripPrefixCI "unknown identifier".toList cs).orElse
      (fun _ => stripPrefixCI "unknown constant".toList cs) with
  | none => none
  | some r0 =>
    match takeRun1 isSpaceChar r0 with
    | none => none
    | some (_, r1) =>
      -- `'?` then `([\w\.]+)`: with a leading quote the identifier must
      -- follow it; without one it must start immediately (a bare quote is
      -- not in the capture class, so backtracking cannot succeed).
      let r2 : Option (List Char) :=
        match r1 with
        | '\'' :: rest => if (rest.headD ' ' |> isIdentChar) then some rest else none
        | _ => some r1
      match r2 with
      | none => none
      | some r3 =>
        match takeRun1 isIdentChar r3 with
        | none => none
        | some (cap, rem) =>
          -- trailing `'?`
          match rem with
          | '\'' :: rem' => some (cap, rem')
          | _ => some (cap, rem)

/-- Left-to-right scan for non-overlapping matches (Python `findall`),
collecting the captures.  The fuel is an upper bound on the number of scan
steps; each step consumes at least one character. -/
def findMissing : Nat → List Char → List (List Char)
  | 0, _ => []
  | _, [] => []
  | fuel + 1, c :: cs =>
    match matchAt (c :: cs) with
    | some (cap, rest) => cap :: findMissing fuel rest
    | none => findMissing fuel cs

/-- `HilbertCoordinator._extract_missing_identifiers(error_message)`. -/
def extract_missing_identifiers (error_message : String) : List String :=
  (findMissing (error_message.length + 1) error_message.toList).map
    (fun cs => String.mk cs)


/-! ## Coordinator helpers (`src/agent/coordinator.py`) -/

/-- `HilbertCoordinator.retrieve_theorems(problem, docstring, error_message)`:
generate search queries, batch-retrieve candidates (default `top_k = 5`),
then have the Reasoner select the relevant ones. -/
def retrieve_theorems (env : Env) (problem : String) (docstring : Option String)
    (error_message : Option String) : M (List Thm) := fun st =>
  let qs := env.generate_search_queries st.counter problem docstring error_message
  let st1 := tick st
  let cand := batch_retrieve env qs 5
  (env.select_relevant_theorems st1.counter problem docstring cand, tick st1)

/-- `HilbertCoordinator.generate_proof_sketch(problem, relevant_theorems,
docstring)`: informal proof then formal sketch, both via the Reasoner. -/
def generate_proof_sketch (env : Env) (problem : String) (ths : List Thm)
    (docstring : Option String) : M String := fun st =>
  let informal := env.generate_informal_proof st.counter problem ths docstring
  let st1 := tick st
  (env.generate_sketch st1.counter problem ths informal, tick st1)

/-- `HilbertCoordinator.augment_theorems(error_message, existing_theorems,
docstring, problem)`: extract missing identifiers from the diagnostic and,
only when at least one was found, retrieve additional theorems (with the
diagnostic as extra query context) and append them to the existing list. -/
def augment_theorems (env : Env) (error_message : String) (existing : List Thm)
    (docstring : Option String) (problem : String) : M (List Thm) := fun st =>
  let missing := extract_missing_identifiers error_message
  if missing.isEmpty then (existing, st)
  else
    match retrieve_theorems env problem docstring (some error_message) st with
    | (add, st1) => (existing ++ add, st1)

/-- The correction loop of `complete_and_correct_syntax_error`
(`for _ in range(self.theorem_corrections)`): augment theorems from the
latest diagnostic, rewrite the sketch, re-verify `header + "\n" + sketch`;
return the sketch on success, else iterate with the new sketch and
diagnostic.  Exhaustion returns `None`. -/
def ccse_loop (env : Env) (n : Nat) (sketch header : String) (ths : List Thm)
    (problem : String) (docstring : Option String) (error_message : String) :
    M (Option String) :=
  match n with
  | 0 => fun st => (none, st)
  | m + 1 => fun st =>
    match augment_theorems env error_message ths docstring problem st with
    | (aug, st1) =>
      let sk := env.correct_sketch_error st1.counter problem docstring sketch
        error_message aug
      let st2 := tick st1
      match call_verifier env (header ++ "\n" ++ sk) st2 with
      | ((v, em), st3) =>
        if v then (some sk, st3)
        else ccse_loop env m sk header ths problem docstring em st3

/-- `HilbertCoordinator.complete_and_correct_syntax_error(sketch, header,
relevant_theorems, problem, docstring)`: verify `header + "\n" + sketch`;
return the sketch unchanged on success, otherwise run the bounded correction
loop. -/
def complete_and_correct_syntax_error (env : Env) (cfg : Config)
    (sketch header : String) (ths : List Thm) (problem : String)
    (docstring : Option String) : M (Option String) := fun st =>
  match call_verifier env (header ++ "\n" ++ sketch) st with
  | ((v, em), st1) =>
    if v then (some sketch, st1)
    else ccse_loop env cfg.theorem_corrections sketch header ths problem
      docstring em st1

/-- The inner repair loop of `extract_subgoals`
(`for _ in range(self.subgoal_corrections)`): repeatedly ask the Reasoner to
correct the (original) subgoal against the latest diagnostic and verify
`header + "\n" + corrected`; first verifying variant wins. -/
def correct_subgoal_loop (env : Env) (n : Nat) (subgoal header : String)
    (error_message : String) : M (Option String) :=
  match n with
  | 0 => fun st => (none, st)
  | m + 1 => fun st =>
    let cs := env.correct_theorem_error st.counter subgoal error_message
    let st1 := tick st
    match call_verifier env (header ++ "\n" ++ cs) st1 with
    | ((v, em), st2) =>
      if v then (some cs, st2)
      else correct_subgoal_loop env m subgoal header em st2

/-- The per-subgoal loop of `extract_subgoals`: verify each extracted
subgoal against the header, repairing on failure; a subgoal that never
verifies fails the whole extraction (`return None`). -/
def extract_subgoals_loop (env : Env) (cfg : Config) (sgs : List String)
    (header : String) (acc : List String) : M (Option (List String)) :=
  match sgs with
  | [] => fun st => (some acc, st)
  | sg :: rest => fun st =>
    match call_verifier env (header ++ "\n" ++ sg) st with
    | ((v, em), st1) =>
      if v then extract_subgoals_loop env cfg rest header (acc ++ [sg]) st1
      else
        match correct_subgoal_loop env cfg.subgoal_corrections sg header em st1 with
        | (none, st2) => (none, st2)
        | (some cs, st2) => extract_subgoals_loop env cfg rest header (acc ++ [cs]) st2

/-- `HilbertCoordinator.extract_subgoals(sketch, header)`: ask the Reasoner
for subgoals, then verify/repair each one in order. -/
def extract_subgoals (env : Env) (cfg : Config) (sketch header : String) :
    M (Option (List String)) := fun st =>
  let sgs := env.extract_subgoals st.counter sketch
  extract_subgoals_loop env cfg sgs header [] (tick st)

/-- The repair loop of `verify_and_correct_proof_with_theorems`
(`for _ in range(self.head_theorems_sketch)`): ask the Reasoner for an
assembly correction of the (original) assembled sketch against the latest
diagnostic and re-verify the composed text. -/
def vc_loop (env : Env) (n : Nat) (sketch_assembled header theorems_block : String)
    (error_message : String) : M (Option String) :=
  match n with
  | 0 => fun st => (none, st)
  | m + 1 => fun st =>
    let cp := env.assembly_correction st.counter error_message sketch_assembled
    let st1 := tick st
    let fp := if theorems_block == "" then header ++ "\n" ++ cp
      else header ++ "\n" ++ theorems_block ++ "\n" ++ cp
    match call_verifier env fp st1 with
    | ((v, em), st2) =>
      if v then (some cp, st2)
      else vc_loop env m sketch_assembled header theorems_block em st2

/-- `HilbertCoordinator.verify_and_correct_proof_with_theorems(
sketch_assembled, header, theorems_block, problem)`. -/
def verify_and_correct_proof_with_theorems (env : Env) (cfg : Config)
    (sketch_assembled header theorems_block _problem : String) :
    M (Option String) := fun st =>
  let fp := if theorems_block == "" then header ++ "\n" ++ sketch_assembled
    else header ++ "\n" ++ theorems_block ++ "\n" ++ sketch_assembled
  match call_verifier env fp st with
  | ((v, em), st1) =>
    if v then (some sketch_assembled, st1)
    else vc_loop env cfg.head_theorems_sketch sketch_assembled header
      theorems_block em st1

/-- `HilbertCoordinator.assemble_proof_from_subgoals(sketch, subgoals,
header, problem)`: have the Reasoner reassemble the sketch around the
subgoals, join the subgoals into a theorem block, and verify/repair the
composition. -/
def assemble_proof_from_subgoals (env : Env) (cfg : Config) (sketch : String)
    (subgoals : List String) (header problem : String) : M (Option String) :=
  fun st =>
  let sa := env.use_sketch_and_throrems st.counter sketch subgoals
  let tb := if subgoals.isEmpty then "" else String.intercalate "\n\n" subgoals
  verify_and_correct_proof_with_theorems env cfg sa header tb problem (tick st)

/-- The Prover attempt loop of `attemp_proverllm_proof`
(`for _ in range(self.prover_attemps)`): call the Prover; skip empty
answers; verify the returned proof text standalone (exactly the proof, no
header); first verified proof wins. -/
def prover_loop (env : Env) (pf : Nat → String → String → String) (n : Nat)
    (probelm header : String) : M (Option String) :=
  match n with
  | 0 => fun st => (none, st)
  | m + 1 => fun st =>
    match call_prover pf probelm header st with
    | (proof, st1) =>
      if proof == "" then prover_loop env pf m probelm header st1
      else
        match call_verifier env proof st1 with
        | ((v, _em), st2) =>
          if v then (some proof, st2) else prover_loop env pf m probelm header st2

/-- `HilbertCoordinator.attemp_proverllm_proof(probelm, header)` (name as in
the source): return `None` immediately when no Prover is configured, else
run the bounded Prover attempt loop. -/
def attemp_proverllm_proof (env : Env) (cfg : Config) (probelm header : String) :
    M (Option String) :=
  match env.prover with
  | none => fun st => (none, st)
  | some pf => prover_loop env pf cfg.prover_attemps probelm header

/-- `HilbertCoordinator.check_mathematic_correctness(subgoal)` (delegates to
the Reasoner). -/
def check_mathematic_correctness (env : Env) (subgoal : String) :
    M (Bool × String) := fun st =>
  (env.check_mathematic_correctness st.counter subgoal, tick st)

/-- The result of `validate_subgoals`: either
`(True, verified_subgoals, proved_subgoals, None)` or
`(False, None, None, justification)`. -/
inductive VRes where
  | ok (verified : List String) (proved : List (String × String)) : VRes
  | fail (justification : String) : VRes
deriving DecidableEq, Repr

/-- The per-subgoal loop of `validate_subgoals`: attempt a Prover proof; on
success append the proof to `verified_subgoals` and record
`proved_subgoals[subgoal] = proof`; on failure fall back to the Reasoner's
mathematical-correctness judgment, appending the bare subgoal to
`verified_subgoals` when accepted, and aborting with the justification when
rejected. -/
def validate_loop (env : Env) (cfg : Config) (header : String)
    (sgs : List String) (verified : List String)
    (proved : List (String × String)) : M VRes :=
  match sgs with
  | [] => fun st => (VRes.ok verified proved, st)
  | sg :: rest => fun st =>
    match attemp_proverllm_proof env cfg sg header st with
    | (some proof, st1) =>
      validate_loop env cfg header rest (verified ++ [proof])
        (dict_insert proved sg proof) st1
    | (none, st1) =>
      match check_mathematic_correctness env sg st1 with
      | ((c, j), st2) =>
        if c then validate_loop env cfg header rest (verified ++ [sg]) proved st2
        else (VRes.fail j, st2)

/-- `HilbertCoordinator.validate_subgoals(subgoals, header)`. -/
def validate_subgoals (env : Env) (cfg : Config) (subgoals : List String)
    (header : String) : M VRes :=
  validate_loop env cfg header subgoals [] []

/-- `HilbertCoordinator.correct_proof_error(proof, error_message,
augmented_theorems)` (delegates to the Reasoner). -/
def correct_proof_error (env : Env) (proof error_message : String)
    (ths : List Thm) : M String := fun st =>
  (env.correct_proof_error st.counter proof error_message ths, tick st)

/-- The correction loop of `general_llm_proof`
(`for _ in range(self.general_llm_proof_attemps)`): augment theorems from
the latest diagnostic (with `docstring=""` and the subgoal as problem),
correct the proof, skip empty corrections, and verify
`header + "\n" + proof`. -/
def gl_loop (env : Env) (n : Nat) (subgoal header : String) (ths : List Thm)
    (proof error_message : String) : M (Option String) :=
  match n with
  | 0 => fun st => (none, st)
  | m + 1 => fun st =>
    match augment_theorems env error_message ths (some "") subgoal st with
    | (aug, st1) =>
      match correct_proof_error env proof error_message aug st1 with
      | (p, st2) =>
        if p == "" || py_strip p == "" then
          gl_loop env m subgoal header ths p error_message st2
        else
          match call_verifier env (header ++ "\n" ++ p) st2 with
          | ((v, em), st3) =>
            if v then (some p, st3) else gl_loop env m subgoal header ths p em st3

/-- `HilbertCoordinator.general_llm_proof(subgoal, header,
relevant_theorems)`: ask the Reasoner for a proof, reject empty answers,
verify `header + "\n" + proof`, and on failure run the bounded error-driven
correction loop. -/
def general_llm_proof (env : Env) (cfg : Config) (subgoal header : String)
    (ths : List Thm) : M (Option String) := fun st =>
  let proof := env.attemp_reasoner_proof st.counter subgoal ths
  let st1 := tick st
  if proof == "" || py_strip proof == "" then (none, st1)
  else
    match call_verifier env (header ++ "\n" ++ proof) st1 with
    | ((v, em), st2) =>
      if v then (some proof, st2)
      else gl_loop env cfg.general_llm_proof_attemps subgoal header ths proof em st2

/-- `HilbertCoordinator.concatenate_proofs(header, subgoals_proved,
sketch_assembled)`: `header + "\n" + "\n\n".join(proofs) + "\n" +
sketch_assembled`. -/
def concatenate_proofs (header : String)
    (subgoals_proved : List (String × String)) (sketch_assembled : String) :
    String :=
  let theorems_block := String.intercalate "\n\n" (subgoals_proved.map (·.2))
  header ++ "\n" ++ theorems_block ++ "\n" ++ sketch_assembled

/-! ## Sketch refinement and the recursive decomposition core -/

/-- One iteration body plus recursion of `refine_and_validate_sketch`
(`for attempt in range(self.sketch_correction_attemps)`):
1. syntax-complete the sketch (immediate all-`None` return on failure);
2. compress it, keeping the compressed version only if it re-verifies;
3. extract subgoals (all-`None` on failure);
4. assemble the proof from the subgoals (all-`None` on failure);
5. validate the subgoals; on success return
   `(sketch_assembled, verified_subgoals, proved_subgoals)`, otherwise
   refine the current sketch from the justification and iterate. -/
def rvs_loop (env : Env) (cfg : Config) (n : Nat) (sketch header : String)
    (ths : List Thm) (problem : String) (docstring : Option String) :
    M (Option (String × List String × List (String × String))) :=
  match n with
  | 0 => fun st => (none, st)
  | m + 1 => fun st =>
    match complete_and_correct_syntax_error env cfg sketch header ths problem
        docstring st with
    | (none, st1) => (none, st1)
    | (some sk_syn, st1) =>
      let compressed := env.compress_sketch st1.counter sk_syn problem docstring
      let st2 := tick st1
      match call_verifier env (header ++ "\n" ++ compressed) st2 with
      | ((vc, _emc), st3) =>
        let sk_syn2 := if vc then compressed else sk_syn
        match extract_subgoals env cfg sk_syn2 header st3 with
        | (none, st4) => (none, st4)
        | (some sgs, st4) =>
          match assemble_proof_from_subgoals env cfg sk_syn2 sgs header problem st4 with
          | (none, st5) => (none, st5)
          | (some sa, st5) =>
            match validate_subgoals env cfg sgs header st5 with
            | (VRes.ok ver prov, st6) => (some (sa, ver, prov), st6)
            | (VRes.fail j, st6) =>
              let refined := env.refine_sketch_based_error st6.counter sketch j
              rvs_loop env cfg m refined header ths problem docstring (tick st6)

/-- `HilbertCoordinator.refine_and_validate_sketch(sketch, header,
relevant_theorems, problem, docstring)`. -/
def refine_and_validate_sketch (env : Env) (cfg : Config)
    (sketch header : String) (ths : List Thm) (problem : String)
    (docstring : Option String) :
    M (Option (String × List String × List (String × String))) :=
  rvs_loop env cfg cfg.sketch_correction_attemps sketch header ths problem docstring

/-- One iteration of the sketch-attempt loop of `subgoal_decomposition`:
bump the ghost iteration counter (mirroring the "Sketch attempt" log line),
retrieve theorems, generate a sketch, and refine/validate it. -/
def sketch_attempt_once (env : Env) (cfg : Config) (problem header : String)
    (docstring : Option String) :
    M (Option (String × List String × List (String × String))) := fun st =>
  let st0 : St := { st with sketch_iters := st.sketch_iters + 1 }
  match retrieve_theorems env problem docstring none st0 with
  | (ths, st1) =>
    match generate_proof_sketch env problem ths docstring st1 with
    | (sk, st2) => refine_and_validate_sketch env cfg sk header ths problem docstring st2

/-- The type of the recursive `subgoal_decomposition` call as seen from
`solve_subgoal`: problem, header, docstring, depth.  The outer `none` of the
result marks fuel exhaustion of the embedding (never reached with enough
fuel); `some r` is the source's return value `r`. -/
abbrev SD : Type := String → String → Option String → Nat → M (Option (Option String))

/-- The fallback chain of `solve_subgoal` after the Prover attempt: retrieve
theorems for the subgoal (with `docstring=""`, no error), try the general
LLM proof, and finally — only when `depth < max_depth` — recurse into
`subgoal_decomposition(subgoal, header, docstring=None, depth+1)`. -/
def solve_subgoal_fallback (env : Env) (cfg : Config) (sd : SD)
    (subgoal header : String) (depth : Nat) : M (Option (Option String)) :=
  fun st =>
  match retrieve_theorems env subgoal (some "") none st with
  | (ths, st1) =>
    match general_llm_proof env cfg subgoal header ths st1 with
    | (some proof, st2) => (some (some proof), st2)
    | (none, st2) =>
      if depth < cfg.max_depth then
        match sd subgoal header none (depth + 1) st2 with
        | (none, st3) => (none, st3)
        | (some (some proof), st3) => (some (some proof), st3)
        | (some none, st3) => (some none, st3)
      else (some none, st2)

/-- `HilbertCoordinator.solve_subgoal(subgoal, header, depth)`: Prover
first, then the general-LLM and recursive-decomposition fallbacks. -/
def solve_subgoal_core (env : Env) (cfg : Config) (sd : SD)
    (subgoal header : String) (depth : Nat) : M (Option (Option String)) :=
  fun st =>
  match attemp_proverllm_proof env cfg subgoal header st with
  | (some proof, st1) => (some (some proof), st1)
  | (none, st1) => solve_subgoal_fallback env cfg sd subgoal header depth st1

/-- The subgoal loop of `solve_all_subgoals`: for every subgoal not already
a key of the *passed-in* `proved_subgoals`, attempt `solve_subgoal` and
record successes in the *fresh local* dictionary `acc`
(`subgoals_proved`). -/
def solve_all_loop_core (env : Env) (cfg : Config) (sd : SD)
    (sgs : List String) (proved : List (String × String))
    (acc : List (String × String)) (header : String) (depth : Nat) :
    M (Option (List (String × String))) :=
  match sgs with
  | [] => fun st => (some acc, st)
  | sg :: rest => fun st =>
    if (proved.lookup sg).isSome then
      solve_all_loop_core env cfg sd rest proved acc header depth st
    else
      match solve_subgoal_core env cfg sd sg header depth st with
      | (none, st1) => (none, st1)
      | (some (some proof), st1) =>
        solve_all_loop_core env cfg sd rest proved (dict_insert acc sg proof)
          header depth st1
      | (some none, st1) =>
        solve_all_loop_core env cfg sd rest proved acc header depth st1

/-- `HilbertCoordinator.solve_all_subgoals(subgoals, proved_subgoals,
sketch_assembled, header, depth)`: solve the not-yet-proved subgoals,
concatenate `header`, the *newly solved* proofs and the assembled sketch,
verify the composition, and return it only on success. -/
def solve_all_subgoals_core (env : Env) (cfg : Config) (sd : SD)
    (sgs : List String) (proved : List (String × String))
    (sketch_assembled header : String) (depth : Nat) :
    M (Option (Option String)) := fun st =>
  match solve_all_loop_core env cfg sd sgs proved [] header depth st with
  | (none, st1) => (none, st1)
  | (some acc, st1) =>
    let fp := concatenate_proofs header acc sketch_assembled
    match call_verifier env fp st1 with
    | ((v, _em), st2) => (some (if v then some fp else none), st2)

/-- The sketch-attempt loop of `subgoal_decomposition`
(`for attempt in range(self.sketch_attemps)`): run one sketch attempt; when
it yields an assembled sketch, return the result of `solve_all_subgoals` on
it **immediately** (the source returns `final_proof` whether or not it is
`None`); otherwise try the next attempt.  Exhaustion returns `None`. -/
def sd_loop_core (env : Env) (cfg : Config) (sd : SD) (n : Nat)
    (problem header : String) (docstring : Option String) (depth : Nat) :
    M (Option (Option String)) :=
  match n with
  | 0 => fun st => (some none, st)
  | m + 1 => fun st =>
    match sketch_attempt_once env cfg problem header docstring st with
    | (some (sa, sgs, prov), st1) =>
      solve_all_subgoals_core env cfg sd sgs prov sa header depth st1
    | (none, st1) => sd_loop_core env cfg sd m problem header docstring depth st1

/-- `HilbertCoordinator.subgoal_decomposition(problem, header, docstring,
depth)`, fuel-indexed: the `depth >= max_depth` guard returns `None`
immediately; otherwise one unit of structural fuel is consumed and the
sketch-attempt loop runs with the recursive call at the remaining fuel.
Running out of fuel yields the outer `none` (shown unreachable once
`max_depth - depth ≤ fuel`). -/
def subgoal_decomposition_fuel (env : Env) (cfg : Config) :
    Nat → SD
  | 0 => fun _problem _header _docstring depth => fun st =>
    if cfg.max_depth ≤ depth then (some none, st) else (none, st)
  | f + 1 => fun problem header docstring depth => fun st =>
    if cfg.max_depth ≤ depth then (some none, st)
    else
      sd_loop_core env cfg (subgoal_decomposition_fuel env cfg f)
        cfg.sketch_attemps problem header docstring depth st

/-- `HilbertCoordinator.subgoal_decomposition` with the fuel instantiated at
`max_depth`, which the termination theorem shows is always sufficient (the
out-of-fuel `none` is collapsed by `Option.getD`, on a branch that is never
taken). -/
def subgoal_decomposition (env : Env) (cfg : Config)
    (problem header : String) (docstring : Option String) (depth : Nat) :
    M (Option String) := fun st =>
  match subgoal_decomposition_fuel env cfg cfg.max_depth problem header
      docstring depth st with
  | (r, st1) => (r.getD none, st1)

/-- `HilbertCoordinator.solve_all_subgoals` with the recursive call at fuel
`f` (as it runs inside `subgoal_decomposition_fuel (f+1)`). -/
def solve_all_subgoals (env : Env) (cfg : Config) (f : Nat)
    (sgs : List String) (proved : List (String × String))
    (sketch_assembled header : String) (depth : Nat) :
    M (Option (Option String)) :=
  solve_all_subgoals_core env cfg (subgoal_decomposition_fuel env cfg f) sgs
    proved sketch_assembled header depth

/-- `HilbertCoordinator.generate_proof(problem, header, docstring)`:
delegates to `subgoal_decomposition` at depth 1. -/
def generate_proof (env : Env) (cfg : Config)
    (problem header docstring : String) : M (Option String) :=
  subgoal_decomposition env cfg problem header (some docstring) 1

/-! ## Concrete test environments for witnesses and counterexamples -/

/-- A base environment: the verifier always succeeds, no Prover is
configured, retrieval is empty, and every Reasoner transformation is as
simple as possible (the generated sketch is `"A"`, compression and
corrections are the identity, no subgoals are extracted). -/
def Env.base : Env where
  verify := fun _ => (true, "")
  prover := none
  index_search := fun _ _ => []
  dataset := fun _ => ⟨"", "", ""⟩
  generate_search_queries := fun _ _ _ _ => []
  select_relevant_theorems := fun _ _ _ _ => []
  generate_informal_proof := fun _ _ _ _ => "I"
  generate_sketch := fun _ _ _ _ => "A"
  compress_sketch := fun _ s _ _ => s
  correct_sketch_error := fun _ _ _ s _ _ => s
  extract_subgoals := fun _ _ => []
  correct_theorem_error := fun _ s _ => s
  use_sketch_and_throrems := fun _ s _ => s
  assembly_correction := fun _ _ s => s
  check_mathematic_correctness := fun _ _ => (true, "J")
  refine_sketch_based_error := fun _ s _ => s
  attemp_reasoner_proof := fun _ _ _ => "GP"
  correct_proof_error := fun _ p _ _ => p

/-- Environment for the C3 analysis: everything succeeds except the final
composed proof `"h\n\nA"`, whose verification fails. -/
def env3 : Env := { Env.base with verify := fun s => (!(s == "h\n\nA"), "e") }

/-- Environment for the C4 analysis: a Prover is configured but always
returns the empty string (so every Prover attempt fails), while the
mathematical-correctness judgment accepts. -/
def env4 : Env := { Env.base with prover := some (fun _ _ _ => "") }

/-- Environment for the C6 analysis: query `"a"` hits dataset row 0 and
query `"b"` hits row 1, both rows named `"foo"`; any other query gets five
hits on row 0. -/
def env6 : Env :=
  { Env.base with
    index_search := fun q _k =>
      if q == "a" then [(10, 0)]
      else if q == "b" then [(9, 1)]
      else [(5, 0), (4, 0), (3, 0), (2, 0), (1, 0)]
    dataset := fun i => if i == 0 then ⟨"foo", "s0", "t0"⟩ else ⟨"foo", "s1", "t1"⟩ }

/-- An existing theorem record named `"foo"`. -/
def thmFoo : Thm := ⟨"foo", "sig0", "ty0", 10⟩

/-- A second, distinct record with the same name `"foo"`. -/
def thmFoo2 : Thm := ⟨"foo", "sig1", "ty1", 9⟩

/-- Environment for the C7 analysis: theorem selection always returns the
record `thmFoo2`, whose name collides with the existing `thmFoo`. -/
def env7 : Env := { Env.base with select_relevant_theorems := fun _ _ _ _ => [thmFoo2] }

/-- Environment for the C10 analysis: the Prover always answers `"PP"`, and
the verifier accepts everything. -/
def env10 : Env := { Env.base with prover := some (fun _ _ _ => "PP") }

/-! ## Claims -/

/-- Sanity checks of the missing-identifier scanner against the regex
examples given in the source's docstring. -/
theorem extract_missing_identifiers_examples :
    extract_missing_identifiers "error: unknown identifier 'convexHull' at" =
      ["convexHull"] ∧
    extract_missing_identifiers
        "Unknown constant Finset.card_eq, unknown identifier 'foo'" =
      ["Finset.card_eq", "foo"] ∧
    extract_missing_identifiers "type mismatch at foo" = [] := by
  refine ⟨by decide, by decide, by decide⟩

/-- **C6** (counterexample).  The claim says `batch_retrieve` returns the
per-query `top_k` (default 5) records, deduplicated by name.  In `env6` the
two queries `"a"` and `"b"` both contribute a record named `"foo"`, and the
result keeps both; and a single query with five index hits contributes only
2 records (the source truncates each per-query result list to
`results[:2]`), not `top_k = 5`. -/
theorem C6_counterexample :
    (batch_retrieve env6 ["a", "b"] 5).map (·.name) = ["foo", "foo"] ∧
    ¬ List.Pairwise (fun a b : Thm => a.name ≠ b.name)
        (batch_retrieve env6 ["a", "b"] 5) ∧
    (batch_retrieve env6 ["c"] 5).length = 2 ∧ (2 : Nat) ≠ 5 := by
  refine ⟨by decide, by decide, by decide, by decide⟩

/-- **C6** (amended).  `batch_retrieve` returns, for each query, the first
two of the `top_k` index hits (per-query results are truncated to
`results[:2]`), merged across the queries and sorted by similarity score
descending; duplicates (including records with equal names) are *not*
removed. -/
theorem C6_sorted_merge (env : Env) (queries : List String) (top_k : Nat) :
    List.Sorted score_ge (batch_retrieve env queries top_k) ∧
    (batch_retrieve env queries top_k).Perm
      (queries.flatMap (fun q => retrieve env q top_k)) ∧
    ∀ q, (retrieve env q top_k).length ≤ 2 := by
  refine ⟨List.sorted_insertionSort score_ge _, List.perm_insertionSort score_ge _, ?_⟩
  intro q
  unfold retrieve
  exact List.length_take_le 2 _

/-- **C7** (counterexample).  The claim says the augmented theorem list is
deduplicated by name.  In `env7`, with diagnostic
`"unknown identifier 'bar'"` (one missing identifier is extracted, so
re-retrieval runs), the existing record `thmFoo` and the newly retrieved
`thmFoo2` share the name `"foo"`, and the augmented list keeps both. -/
theorem C7_counterexample :
    extract_missing_identifiers "unknown identifier 'bar'" = ["bar"] ∧
    (augment_theorems env7 "unknown identifier 'bar'" [thmFoo] (some "d") "p"
        St.init).1.map (·.name) = ["foo", "foo"] ∧
    ¬ List.Pairwise (fun a b : Thm => a.name ≠ b.name)
        (augment_theorems env7 "unknown identifier 'bar'" [thmFoo] (some "d") "p"
          St.init).1 := by
  refine ⟨by decide, by decide, by decide⟩

/-- **C7** (amended).  `augment_theorems` re-retrieves additional theorems
exactly when at least one missing identifier is extracted from the
diagnostic (otherwise the state is untouched — no retrieval calls are
made), and the merge is plain list concatenation `existing ++ additional`
with no deduplication by name. -/
theorem C7_augment_only_on_missing (env : Env) (em1 em2 : String)
    (existing : List Thm) (d : Option String) (p : String) (st : St)
    (h1 : extract_missing_identifiers em1 = [])
    (h2 : extract_missing_identifiers em2 ≠ []) :
    augment_theorems env em1 existing d p st = (existing, st) ∧
    augment_theorems env em2 existing d p st =
      (existing ++ (retrieve_theorems env p d (some em2) st).1,
       (retrieve_theorems env p d (some em2) st).2) := by
  constructor
  · unfold augment_theorems
    rw [h1]
    simp
  · have hne : (extract_missing_identifiers em2).isEmpty = false := by
      rcases h : extract_missing_identifiers em2 with _ | ⟨a, l⟩
      · exact absurd h h2
      · rfl
    simp only [augment_theorems, hne, Bool.false_eq_true, if_false]

/-- **C7** (witness for the amended theorem). -/
theorem C7_witness :
    extract_missing_identifiers "all good" = [] ∧
    extract_missing_identifiers "unknown identifier 'bar'" ≠ [] ∧
    (augment_theorems env7 "all good" [thmFoo] (some "d") "p" St.init =
      ([thmFoo], St.init) ∧
    augment_theorems env7 "unknown identifier 'bar'" [thmFoo] (some "d") "p"
        St.init =
      ([thmFoo] ++
        (retrieve_theorems env7 "p" (some "d") (some "unknown identifier 'bar'")
          St.init).1,
       (retrieve_theorems env7 "p" (some "d") (some "unknown identifier 'bar'")
         St.init).2)) :=
  ⟨by decide, by decide,
    C7_augment_only_on_missing env7 "all good" "unknown identifier 'bar'"
      [thmFoo] (some "d") "p" St.init (by decide) (by decide)⟩

/-- **C9**.  When no Prover is configured (`self.prover is None`),
`attemp_proverllm_proof` returns `None` with the state untouched (so no
Prover call and no Verifier call is made), `validate_subgoals` falls
directly through to the mathematical-correctness judgment for each subgoal,
and `solve_subgoal` proceeds directly to its general-LLM fallback chain. -/
theorem C9_prover_none (env : Env) (cfg : Config) (sd : SD)
    (sg header : String) (depth : Nat) (rest ver : List String)
    (prov : List (String × String)) (st : St) (h : env.prover = none) :
    attemp_proverllm_proof env cfg sg header st = (none, st) ∧
    solve_subgoal_core env cfg sd sg header depth st =
      solve_subgoal_fallback env cfg sd sg header depth st ∧
    validate_loop env cfg header (sg :: rest) ver prov st =
      (match check_mathematic_correctness env sg st with
       | ((c, j), st1) =>
         if c then validate_loop env cfg header rest (ver ++ [sg]) prov st1
         else (VRes.fail j, st1)) := by
  have ha : attemp_proverllm_proof env cfg sg header st = (none, st) := by
    unfold attemp_proverllm_proof
    rw [h]
  refine ⟨ha, ?_, ?_⟩
  · unfold solve_subgoal_core
    rw [ha]
  · simp only [validate_loop, ha]

/-- **C9** (witness): `Env.base` has no Prover configured. -/
theorem C9_witness :
    Env.base.prover = none ∧
    (attemp_proverllm_proof Env.base Config.default "g" "h" St.init =
      (none, St.init) ∧
    solve_subgoal_core Env.base Config.default
        (subgoal_decomposition_fuel Env.base Config.default 4) "g" "h" 1
        St.init =
      solve_subgoal_fallback Env.base Config.default
        (subgoal_decomposition_fuel Env.base Config.default 4) "g" "h" 1
        St.init ∧
    validate_loop Env.base Config.default "h" ["g"] [] [] St.init =
      (match check_mathematic_correctness Env.base "g" St.init with
       | ((c, j), st1) =>
         if c then validate_loop Env.base Config.default "h" [] ["g"] [] st1
         else (VRes.fail j, st1))) :=
  ⟨rfl,
    C9_prover_none Env.base Config.default
      (subgoal_decomposition_fuel Env.base Config.default 4) "g" "h" 1 [] []
      [] St.init rfl⟩

/-- **C3** (counterexample).  The claim says that when a sketch assembles
but `solve_all_subgoals` fails, the loop continues with a fresh sketch, and
null is returned only after all `sketch_attemps` are exhausted.  In `env3`
the first sketch attempt assembles (`refine_and_validate_sketch` returns a
non-null triple) and only the final composed verification fails, yet
`subgoal_decomposition` returns null after exactly **one** sketch-attempt
iteration, not after `sketch_attemps = 5`. -/
theorem C3_counterexample :
    (subgoal_decomposition env3 Config.default "p" "h" (some "d") 1 St.init).1
        = none ∧
    ((subgoal_decomposition env3 Config.default "p" "h" (some "d") 1
        St.init).2).sketch_iters = 1 ∧
    (sketch_attempt_once env3 Config.default "p" "h" (some "d") St.init).1 =
      some ("A", [], []) ∧
    (1 : Nat) ≠ Config.default.sketch_attemps := by
  refine ⟨by decide, by decide, by decide, by decide⟩

/-- **C3** (amended).  When a sketch attempt's `refine_and_validate_sketch`
returns a non-null assembled sketch, the sketch-attempt loop returns the
result of `solve_all_subgoals` on it **immediately** — even when that
result is null; the remaining sketch attempts are not tried.  (Null after
exhausting all `sketch_attemps` arises only when every attempt's
refinement fails.) -/
theorem C3_early_return (env : Env) (cfg : Config) (sd : SD) (n : Nat)
    (problem header : String) (docstring : Option String) (depth : Nat)
    (st st1 : St) (sa : String) (sgs : List String)
    (prov : List (String × String))
    (h : sketch_attempt_once env cfg problem header docstring st =
      (some (sa, sgs, prov), st1)) :
    sd_loop_core env cfg sd (n + 1) problem header docstring depth st =
      solve_all_subgoals_core env cfg sd sgs prov sa header depth st1 := by
  unfold sd_loop_core
  rw [h]

/-- **C3** (witness for the amended theorem). -/
theorem C3_witness :
    sd_loop_core env3 Config.default
        (subgoal_decomposition_fuel env3 Config.default 4) 5 "p" "h"
        (some "d") 1 St.init =
      solve_all_subgoals_core env3 Config.default
        (subgoal_decomposition_fuel env3 Config.default 4) [] [] "A" "h" 1
        (sketch_attempt_once env3 Config.default "p" "h" (some "d")
          St.init).2 :=
  C3_early_return env3 Config.default
    (subgoal_decomposition_fuel env3 Config.default 4) 4 "p" "h" (some "d") 1
    St.init (sketch_attempt_once env3 Config.default "p" "h" (some "d")
      St.init).2 "A" [] [] rfl

/-- **C4** (counterexample).  The claim says a subgoal that fails the Prover
but passes the mathematical-correctness judgment is recorded in
`proved_subgoals` keyed by its own statement.  In `env4` the Prover always
fails on `"g"` and the judgment accepts, yet `validate_subgoals` returns
`proved_subgoals = []` — the subgoal is only appended to the
`verified_subgoals` list, never to the proved map. -/
theorem C4_counterexample :
    (validate_subgoals env4 Config.default ["g"] "h" St.init).1 =
      VRes.ok ["g"] [] ∧
    (attemp_proverllm_proof env4 Config.default "g" "h" St.init).1 = none ∧
    VRes.ok ["g"] ([] : List (String × String)) ≠
      VRes.ok ["g"] [("g", "g")] := by
  refine ⟨by decide, by decide, by decide⟩

/-- **C4** (amended).  When the Prover attempt on a subgoal fails and the
Reasoner's mathematical-correctness judgment accepts it, `validate_subgoals`
appends the bare subgoal statement to `verified_subgoals` (the statement
stands in for a proof there) but does **not** record it in
`proved_subgoals`; the proved map receives only Prover-verified proofs. -/
theorem C4_math_accept_not_in_proved (env : Env) (cfg : Config)
    (header sg : String) (rest ver : List String)
    (prov : List (String × String)) (st st1 st2 : St) (j : String)
    (h1 : attemp_proverllm_proof env cfg sg header st = (none, st1))
    (h2 : check_mathematic_correctness env sg st1 = ((true, j), st2)) :
    validate_loop env cfg header (sg :: rest) ver prov st =
      validate_loop env cfg header rest (ver ++ [sg]) prov st2 := by
  simp only [validate_loop, h1, h2, if_true]

/-- **C4** (witness for the amended theorem). -/
theorem C4_witness :
    validate_loop env4 Config.default "h" ["g"] [] [] St.init =
      validate_loop env4 Config.default "h" [] ["g"] []
        (check_mathematic_correctness env4 "g"
          (attemp_proverllm_proof env4 Config.default "g" "h" St.init).2).2 :=
  C4_math_accept_not_in_proved env4 Config.default "h" "g" [] [] []
    St.init (attemp_proverllm_proof env4 Config.default "g" "h" St.init).2
    (check_mathematic_correctness env4 "g"
      (attemp_proverllm_proof env4 Config.default "g" "h" St.init).2).2 "J"
    rfl rfl

/-- **C5** (counterexample).  The claim says the final proof concatenates
the proofs of *all* subgoals, including those already present in the
passed-in proved map.  With subgoal `"g"` already proved as `"PG"` in the
passed-in map, the loop skips `"g"`, the local `subgoals_proved` stays
empty, and the verified final text is `"h\n\nA"` — the proof `"PG"` is
dropped.  The claim's predicted text would have been
`concatenate_proofs "h" [("g", "PG")] "A" = "h\nPG\nA"`. -/
theorem C5_counterexample :
    (solve_all_subgoals Env.base Config.default 4 ["g"] [("g", "PG")] "A" "h"
        1 St.init).1 = some (some "h\n\nA") ∧
    "h\n\nA" ≠ concatenate_proofs "h" [("g", "PG")] "A" := by
  refine ⟨by decide, by decide⟩

/-- **C5** (amended).  After its subgoal loop returns the *fresh local*
dictionary `acc` (`subgoals_proved`, holding only subgoals newly solved in
this call — subgoals keyed in the passed-in `proved_subgoals` are skipped
and their stored proofs never re-enter), `solve_all_subgoals` builds
exactly `concatenate_proofs header acc sketch_assembled`, verifies exactly
that text as its final Verifier call, and returns it iff that check
succeeds. -/
theorem C5_final_concatenation (env : Env) (cfg : Config) (sd : SD)
    (sgs : List String) (proved acc : List (String × String))
    (sketch_assembled header : String) (depth : Nat) (st st1 : St)
    (h : solve_all_loop_core env cfg sd sgs proved [] header depth st =
      (some acc, st1)) :
    solve_all_subgoals_core env cfg sd sgs proved sketch_assembled header
        depth st =
      (some (if (env.verify (concatenate_proofs header acc sketch_assembled)).1
          then some (concatenate_proofs header acc sketch_assembled)
          else none),
       { st1 with vtrace := st1.vtrace ++
          [(concatenate_proofs header acc sketch_assembled,
            (env.verify (concatenate_proofs header acc sketch_assembled)).1)] }) := by
  simp only [solve_all_subgoals_core, h, call_verifier]

/-- **C5** (witness for the amended theorem). -/
theorem C5_witness :
    solve_all_subgoals_core Env.base Config.default
        (subgoal_decomposition_fuel Env.base Config.default 4) ["g"]
        [("g", "PG")] "A" "h" 1 St.init =
      (some (if (Env.base.verify (concatenate_proofs "h" [] "A")).1
          then some (concatenate_proofs "h" [] "A") else none),
       { St.init with vtrace := St.init.vtrace ++
          [(concatenate_proofs "h" [] "A",
            (Env.base.verify (concatenate_proofs "h" [] "A")).1)] }) :=
  C5_final_concatenation Env.base Config.default
    (subgoal_decomposition_fuel Env.base Config.default 4) ["g"]
    [("g", "PG")] [] "A" "h" 1 St.init St.init rfl

/-- **C8** (counterexample).  The claim says that for a problem whose first
sketch verifies immediately with zero subgoals extracted, `generate_proof`
returns *the sketch itself*.  In `Env.base` the generated sketch is `"A"`,
every verification succeeds and no subgoals are extracted, yet
`generate_proof` returns `"h\n\nA"` — the concatenation of the header, an
empty theorem block and the assembled sketch — not the sketch `"A"`.  The
true half of the claim holds: zero Prover calls are made on the run. -/
theorem C8_counterexample :
    (generate_proof Env.base Config.default "p" "h" "d" St.init).1 =
      some "h\n\nA" ∧
    "h\n\nA" ≠ "A" ∧
    ((generate_proof Env.base Config.default "p" "h" "d" St.init).2).prover_calls
      = 0 := by
  refine ⟨by decide, by decide, by decide⟩

/-- **C8** (amended).  With zero subgoals and an empty proved map,
`solve_all_subgoals` makes no Prover call (the final state differs from the
initial one only in the verifier trace), performs exactly one Verifier call
on `concatenate_proofs header [] sketch_assembled` (header, empty theorem
block, assembled sketch), and returns that concatenation — not the bare
sketch — iff the check succeeds. -/
theorem C8_zero_subgoals (env : Env) (cfg : Config) (sd : SD)
    (sketch_assembled header : String) (depth : Nat) (st : St) :
    solve_all_subgoals_core env cfg sd [] [] sketch_assembled header depth
        st =
      (some (if (env.verify (concatenate_proofs header [] sketch_assembled)).1
          then some (concatenate_proofs header [] sketch_assembled)
          else none),
       { st with vtrace := st.vtrace ++
          [(concatenate_proofs header [] sketch_assembled,
            (env.verify (concatenate_proofs header [] sketch_assembled)).1)] }) := by
  simp only [solve_all_subgoals_core, solve_all_loop_core, call_verifier]

/-- Helper: a successful `prover_loop` result was the text of the last
verifier call, which succeeded. -/
theorem prover_loop_some_last (env : Env) (pf : Nat → String → String → String)
    (probelm header : String) :
    ∀ (n : Nat) (st : St) (p : String) (st' : St),
      prover_loop env pf n probelm header st = (some p, st') →
      st'.vtrace.getLast? = some (p, true) := by
  intro n
  induction n with
  | zero =>
    intro st p st' h
    simp [prover_loop] at h
  | succ m ih =>
    intro st p st' h
    simp only [prover_loop, call_prover] at h
    split at h
    · exact ih _ p st' h
    · simp only [call_verifier] at h
      split at h
      · injection h with h1 h2
        injection h1 with h1
        subst h1
        subst h2
        simp_all [List.getLast?_concat]
      · exact ih _ p st' h

/-- Helper: a successful `gl_loop` result `p` means the last verifier call
was on `header ++ "\n" ++ p` and succeeded. -/
theorem gl_loop_some_last (env : Env) (subgoal header : String) :
    ∀ (n : Nat) (ths : List Thm) (proof em : String) (st : St) (p : String)
      (st' : St),
      gl_loop env n subgoal header ths proof em st = (some p, st') →
      st'.vtrace.getLast? = some (header ++ "\n" ++ p, true) := by
  intro n
  induction n with
  | zero =>
    intro ths proof em st p st' h
    simp [gl_loop] at h
  | succ m ih =>
    intro ths proof em st p st' h
    simp only [gl_loop] at h
    split at h
    · exact ih _ _ _ _ p st' h
    · simp only [call_verifier] at h
      split at h
      · injection h with h1 h2
        injection h1 with h1
        subst h1
        subst h2
        simp_all [List.getLast?_concat]
      · exact ih _ _ _ _ p st' h

/-- Helper: a successful `general_llm_proof` result `p` means the last
verifier call was on `header ++ "\n" ++ p` and succeeded. -/
theorem general_llm_some_last (env : Env) (cfg : Config)
    (subgoal header : String) (ths : List Thm) (st : St) (p : String)
    (st' : St)
    (h : general_llm_proof env cfg subgoal header ths st = (some p, st')) :
    st'.vtrace.getLast? = some (header ++ "\n" ++ p, true) := by
  simp only [general_llm_proof] at h
  split at h
  · simp at h
  · simp only [call_verifier] at h
    split at h
    · injection h with h1 h2
      injection h1 with h1
      subst h1
      subst h2
      simp_all [List.getLast?_concat]
    · exact gl_loop_some_last env subgoal header _ _ _ _ _ p st' h

/-- Helper: a successful `attemp_proverllm_proof` result was the text of the
last verifier call, which succeeded. -/
theorem attemp_some_last (env : Env) (cfg : Config) (sg header : String)
    (st : St) (p : String) (st' : St)
    (h : attemp_proverllm_proof env cfg sg header st = (some p, st')) :
    st'.vtrace.getLast? = some (p, true) := by
  cases hp : env.prover with
  | none =>
    simp only [attemp_proverllm_proof, hp] at h
    simp at h
  | some pf =>
    simp only [attemp_proverllm_proof, hp] at h
    exact prover_loop_some_last env pf sg header _ st p st' h

/-- **C10**.  Every proof accepted by `attemp_proverllm_proof` was verified
*standalone*: the last Verifier input was exactly the proof text, with
neither the header nor the subgoal statement prepended — unlike the
general-LLM path (`general_llm_proof`), whose last Verifier input is
`header ++ "\n" ++ proof`. -/
theorem C10_standalone_verification (env : Env) (cfg : Config)
    (sg header sg2 header2 : String) (ths : List Thm) (st st2 : St)
    (p q : String) (st1 st3 : St)
    (h1 : attemp_proverllm_proof env cfg sg header st = (some p, st1))
    (h2 : general_llm_proof env cfg sg2 header2 ths st2 = (some q, st3)) :
    st1.vtrace.getLast? = some (p, true) ∧
    st3.vtrace.getLast? = some (header2 ++ "\n" ++ q, true) :=
  ⟨attemp_some_last env cfg sg header st p st1 h1,
   general_llm_some_last env cfg sg2 header2 ths st2 q st3 h2⟩

/-- **C10** (witness): in `env10` the Prover-accepted proof `"PP"` was
verified bare, while the general-LLM proof `"GP"` was verified as
`"h\nGP"`. -/
theorem C10_witness :
    ((attemp_proverllm_proof env10 Config.default "g" "h" St.init).2).vtrace.getLast?
        = some ("PP", true) ∧
    ((general_llm_proof env10 Config.default "g" "h" [] St.init).2).vtrace.getLast?
        = some ("h" ++ "\n" ++ "GP", true) :=
  C10_standalone_verification env10 Config.default "g" "h" "g" "h" [] St.init
    St.init "PP" "GP"
    (attemp_proverllm_proof env10 Config.default "g" "h" St.init).2
    (general_llm_proof env10 Config.default "g" "h" [] St.init).2 (by decide)
    (by decide)

/-- Helper: when `solve_all_subgoals` returns a proof, its last verifier
call was on exactly that proof text and succeeded (the final composed
verification is unconditionally the last action before a non-null
return). -/
theorem sas_some_last (env : Env) (cfg : Config) (sd : SD) (sgs : List String)
    (proved : List (String × String)) (sa header : String) (depth : Nat)
    (st : St) (p : String) (st' : St)
    (h : solve_all_subgoals_core env cfg sd sgs proved sa header depth st =
      (some (some p), st')) :
    st'.vtrace.getLast? = some (p, true) := by
  simp only [solve_all_subgoals_core] at h
  split at h
  · simp at h
  · simp only [call_verifier] at h
    injection h with h1 h2
    injection h1 with h1
    subst h2
    split at h1
    · injection h1 with h1
      subst h1
      simp_all [List.getLast?_concat]
    · simp at h1

/-- Helper: a non-null result of the sketch-attempt loop comes directly
from `solve_all_subgoals`, so its last verifier call was on the returned
proof and succeeded. -/
theorem sd_loop_some_last (env : Env) (cfg : Config) (sd : SD)
    (problem header : String) (docstring : Option String) (depth : Nat) :
    ∀ (n : Nat) (st : St) (p : String) (st' : St),
      sd_loop_core env cfg sd n problem header docstring depth st =
        (some (some p), st') →
      st'.vtrace.getLast? = some (p, true) := by
  intro n
  induction n with
  | zero =>
    intro st p st' h
    simp [sd_loop_core] at h
  | succ m ih =>
    intro st p st' h
    simp only [sd_loop_core] at h
    split at h
    · exact sas_some_last env cfg sd _ _ _ header depth _ p st' h
    · exact ih _ p st' h

/-- Helper: `sdf_some_last` lifts `sd_loop_some_last` through the depth
guard and the fuel wrapper of `subgoal_decomposition_fuel`. -/
theorem sdf_some_last (env : Env) (cfg : Config) (fuel : Nat)
    (problem header : String) (docstring : Option String) (depth : Nat)
    (st : St) (p : String) (st' : St)
    (h : subgoal_decomposition_fuel env cfg fuel problem header docstring
      depth st = (some (some p), st')) :
    st'.vtrace.getLast? = some (p, true) := by
  cases fuel with
  | zero =>
    simp only [subgoal_decomposition_fuel] at h
    split at h <;> simp at h
  | succ f =>
    simp only [subgoal_decomposition_fuel] at h
    split at h
    · simp at h
    · exact sd_loop_some_last env cfg _ problem header docstring depth _ st p st' h

/-- **C1**.  Whenever `generate_proof` (and hence `subgoal_decomposition`)
returns a non-null proof `p`, the last Verifier call performed before
returning was `execute` applied to exactly `p` and it returned success: the
ghost verifier trace of the final state ends with `(p, true)`. -/
theorem C1_no_false_positives (env : Env) (cfg : Config)
    (problem header docstring : String) (st : St) (p : String) (st' : St)
    (h : generate_proof env cfg problem header docstring st = (some p, st')) :
    st'.vtrace.getLast? = some (p, true) := by
  simp only [generate_proof, subgoal_decomposition] at h
  rcases hr : subgoal_decomposition_fuel env cfg cfg.max_depth problem header
      (some docstring) 1 st with ⟨r, st1⟩
  rw [hr] at h
  rcases r with _ | r
  · simp at h
  · rcases r with _ | q
    · simp at h
    · simp only [Option.getD_some] at h
      injection h with h1 h2
      injection h1 with h1
      subst h1
      subst h2
      exact sdf_some_last env cfg cfg.max_depth problem header (some docstring)
        1 st q st1 hr

/-- **C1** (witness): the successful `Env.base` run returns `"h\n\nA"`, and
its final verifier-trace entry is `("h\n\nA", true)`. -/
theorem C1_witness :
    ((generate_proof Env.base Config.default "p" "h" "d" St.init).2).vtrace.getLast?
      = some ("h\n\nA", true) :=
  C1_no_false_positives Env.base Config.default "p" "h" "d" St.init "h\n\nA"
    (generate_proof Env.base Config.default "p" "h" "d" St.init).2 (by decide)

/-- Helper: `solve_subgoal` never exhausts the fuel of the embedding,
provided the recursive call at `depth + 1` does not. -/
theorem ssc_isSome (env : Env) (cfg : Config) (sd : SD) (header : String)
    (depth : Nat)
    (H : ∀ (sg : String) (st : St),
      ((sd sg header none (depth + 1) st).1).isSome = true) :
    ∀ (subgoal : String) (st : St),
      ((solve_subgoal_core env cfg sd subgoal header depth st).1).isSome = true := by
  intro subgoal st
  simp only [solve_subgoal_core]
  split
  next x proof st1 hat => simp
  next x st1 hat =>
    simp only [solve_subgoal_fallback]
    split
    next x2 proof st2 hgl => simp
    next x2 st2 hgl =>
      split
      · split
        next x3 st3 heq =>
          have hh := H subgoal st2
          rw [heq] at hh
          simp at hh
        next x3 proof st3 heq => simp
        next x3 st3 heq => simp
      · simp

/-- Helper: the subgoal loop of `solve_all_subgoals` never exhausts the
fuel, provided the recursive call at `depth + 1` does not. -/
theorem sal_isSome (env : Env) (cfg : Config) (sd : SD) (header : String)
    (depth : Nat)
    (H : ∀ (sg : String) (st : St),
      ((sd sg header none (depth + 1) st).1).isSome = true) :
    ∀ (sgs : List String) (proved acc : List (String × String)) (st : St),
      ((solve_all_loop_core env cfg sd sgs proved acc header depth st).1).isSome
        = true := by
  intro sgs
  induction sgs with
  | nil =>
    intro proved acc st
    simp [solve_all_loop_core]
  | cons sg rest ih =>
    intro proved acc st
    simp only [solve_all_loop_core]
    split
    · exact ih proved acc st
    · split
      next x st1 heq =>
        have hh := ssc_isSome env cfg sd header depth H sg st
        rw [heq] at hh
        simp at hh
      next x proof st1 heq => exact ih proved _ st1
      next x st1 heq => exact ih proved acc st1

/-- Helper: `solve_all_subgoals` never exhausts the fuel, provided the
recursive call at `depth + 1` does not. -/
theorem sasc_isSome (env : Env) (cfg : Config) (sd : SD) (header : String)
    (depth : Nat)
    (H : ∀ (sg : String) (st : St),
      ((sd sg header none (depth + 1) st).1).isSome = true)
    (sgs : List String) (proved : List (String × String)) (sa : String)
    (st : St) :
    ((solve_all_subgoals_core env cfg sd sgs proved sa header depth st).1).isSome
      = true := by
  simp only [solve_all_subgoals_core]
  split
  next x st1 heq =>
    have hh := sal_isSome env cfg sd header depth H sgs proved [] st
    rw [heq] at hh
    simp at hh
  next x acc st1 heq => simp [call_verifier]

/-- Helper: the sketch-attempt loop never exhausts the fuel, provided the
recursive call at `depth + 1` does not. -/
theorem sdl_isSome (env : Env) (cfg : Config) (sd : SD) (header : String)
    (depth : Nat)
    (H : ∀ (sg : String) (st : St),
      ((sd sg header none (depth + 1) st).1).isSome = true) :
    ∀ (n : Nat) (problem : String) (docstring : Option String) (st : St),
      ((sd_loop_core env cfg sd n problem header docstring depth st).1).isSome
        = true := by
  intro n
  induction n with
  | zero =>
    intro problem docstring st
    simp [sd_loop_core]
  | succ m ih =>
    intro problem docstring st
    simp only [sd_loop_core]
    split
    · exact sasc_isSome env cfg sd header depth H _ _ _ _
    · exact ih problem docstring _

/-- **C2**.  For every configuration (any `max_depth`, all retry budgets
finite naturals) and every input, `subgoal_decomposition` terminates: with
any structural fuel of at least `max_depth - depth` the embedding never
reaches its out-of-fuel branch (the result is always `some _`), because
each recursive call passes `depth + 1` and is guarded by
`depth < max_depth`; and `depth ≥ max_depth` returns null immediately with
the state untouched (the recursion's base case). -/
theorem C2_termination (env : Env) (cfg : Config) :
    ∀ (fuel : Nat) (problem header : String) (docstring : Option String)
      (depth : Nat) (st : St),
      cfg.max_depth - depth ≤ fuel →
      ((subgoal_decomposition_fuel env cfg fuel problem header docstring depth
        st).1).isSome = true ∧
      (cfg.max_depth ≤ depth →
        subgoal_decomposition_fuel env cfg fuel problem header docstring depth
          st = (some none, st)) := by
  intro fuel
  induction fuel with
  | zero =>
    intro problem header docstring depth st hle
    have hd : cfg.max_depth ≤ depth := by omega
    refine ⟨by simp [subgoal_decomposition_fuel, hd], fun _ => by
      simp [subgoal_decomposition_fuel, hd]⟩
  | succ f ih =>
    intro problem header docstring depth st hle
    constructor
    · simp only [subgoal_decomposition_fuel]
      by_cases hd : cfg.max_depth ≤ depth
      · simp [hd]
      · rw [if_neg hd]
        exact sdl_isSome env cfg _ header depth
          (fun sg st2 => (ih sg header none (depth + 1) st2 (by omega)).1)
          cfg.sketch_attemps problem docstring st
    · intro hd
      simp [subgoal_decomposition_fuel, hd]

/-- **C2** (witness): the default configuration at depth 1 with fuel 5. -/
theorem C2_witness :
    Config.default.max_depth - 1 ≤ 5 ∧
    (((subgoal_decomposition_fuel Env.base Config.default 5 "p" "h" (some "d")
        1 St.init).1).isSome = true ∧
      (Config.default.max_depth ≤ 1 →
        subgoal_decomposition_fuel Env.base Config.default 5 "p" "h" (some "d")
          1 St.init = (some none, St.init))) :=
  ⟨by decide,
    C2_termination Env.base Config.default 5 "p" "h" (some "d") 1 St.init
      (by decide)⟩
